import Mathlib

/-!
Verification of the s3iofs virtual-filesystem core

Shallow embedding of the Go package `s3iofs` (files `s3iofs.go`, `s3file.go`).
Network calls are modelled by passing the store's response for each call as an
explicit argument; the request the code would send is modelled by a separate
`...Req` definition mirroring the request struct built in the source, so that
"no network call" is expressed as independence of the result from the response
argument.  Byte streams (`io.ReadCloser`) are modelled as `ByteStream`: the
list of bytes the stream will deliver plus an optional terminal error
(`terminal = none` means the stream ends cleanly with end-of-file).
Closing a stream is modelled as always succeeding.
-/

set_option autoImplicit false

namespace S3IOFS

/-- Go error values that flow through the package: the `io` sentinels, the
`fs` sentinels, the ad-hoc "is a directory" error, opaque upstream errors
(tagged), and `fs.PathError` wrapping (`Op`, `Path`, inner error). -/
inductive Err where
  | eof
  | unexpectedEOF
  | errInvalid
  | errNotExist
  | isDirectory
  | other (tag : Nat)
  | pathErr (op : String) (path : String) (e : Err)
deriving DecidableEq, Repr

/-- Model of `errors.Is e target`: direct equality, or unwrapping through `PathError`. -/
def Err.isE : Err → Err → Bool
  | .pathErr op p inner, target =>
      decide (Err.pathErr op p inner = target) || inner.isE target
  | e, target => decide (e = target)

/-- An `io.ReadCloser` body: the bytes it will deliver, then either a clean
end of stream (`terminal = none`) or a terminal error. -/
structure ByteStream where
  bytes : List Nat
  terminal : Option Err := none
deriving DecidableEq, Repr

/-- One `Read(p)` call on a stream, where `plen = len(p)` and `d` is the
number of bytes the reader chooses to deliver on this call (readers may
legitimately deliver fewer bytes than are available).  Returns the count
delivered, the error reported by this call, and the remaining stream. -/
def ByteStream.readOnce (b : ByteStream) (plen d : Nat) : Nat × Option Err × ByteStream :=
  let n := min (min plen d) b.bytes.length
  let err := if n < plen ∧ n = b.bytes.length then
      (match b.terminal with
       | some e => some e
       | none => some Err.eof)
    else none
  (n, err, ⟨b.bytes.drop n, b.terminal⟩)

/-- Model of `io.ReadFull(r, p)` on the stream `r` with buffer length `plen`:
reads until the buffer is full or the stream ends; end of input after some
but not all bytes becomes `io.ErrUnexpectedEOF`, after zero bytes `io.EOF`. -/
def readFull (r : ByteStream) (plen : Nat) : Nat × Option Err :=
  if plen ≤ r.bytes.length then (plen, none)
  else (r.bytes.length,
    match r.terminal with
    | some e => some e
    | none => if r.bytes.length = 0 then some Err.eof else some Err.unexpectedEOF)

/-- Model of `s3.GetObjectInput` as built by the source (bucket, key, optional range). -/
structure GetObjectInput where
  bucket : String
  key : String
  range : Option String := none
deriving DecidableEq, Repr

/-- The fields of `s3.GetObjectOutput` the source reads. -/
structure GetObjectOutput where
  contentLength : Int
  lastModified : Int
  body : ByteStream
deriving DecidableEq, Repr

/-- One object entry of a listing response (key, size, last-modified). -/
structure ObjectInfo where
  key : String
  size : Int
  lastModified : Int
deriving DecidableEq, Repr

/-- Model of `s3.ListObjectsV2Input` as built by the source. -/
structure ListObjectsV2Input where
  bucket : String
  pfx : String
  delimiter : String
  maxKeys : Option Int := none
  startAfter : Option String := none
deriving DecidableEq, Repr

/-- The fields of `s3.ListObjectsV2Output` the source reads. -/
structure ListObjectsV2Output where
  commonPrefixes : List String
  contents : List ObjectInfo
deriving DecidableEq, Repr

/-- Model of `s3.DeleteObjectInput` as built by `Remove`. -/
structure DeleteObjectInput where
  bucket : String
  key : String
deriving DecidableEq, Repr

/-- Model of `s3.PutObjectInput` as built by `WriteFile`. -/
structure PutObjectInput where
  bucket : String
  key : String
  body : List Nat
deriving DecidableEq, Repr

def opRead : String := "read"

def opSeek : String := "seek"

/-- Definition `buildRange` from `s3file.go`: maps an (offset, length) request to the
HTTP byte-range expression, `none` meaning no range header. -/
def buildRange (offset length : Int) : Option String :=
  if offset > 0 ∧ length < 0 then
    some ("bytes=" ++ toString offset ++ "-")
  else if length = 0 then
    some ("bytes=" ++ toString offset ++ "-" ++ toString (offset + 1))
  else if length ≥ 0 then
    some ("bytes=" ++ toString offset ++ "-" ++ toString (offset + length - 1))
  else
    none

example : buildRange 0 1024 = some "bytes=0-1023" := by decide
example : buildRange 1024 (-1) = some "bytes=1024-" := by decide
example : buildRange 0 (-1) = none := by decide
example : buildRange 1024 0 = some "bytes=1024-1025" := by decide

/-- The handle type `s3File` from `s3file.go`.  `mode` is the directory bit
of the Go `fs.FileMode`; the mutex is not modelled (every operation is a
whole critical section); `body` is the optional open streaming body. -/
structure S3File where
  name : String
  bucket : String
  size : Int := 0
  mode : Bool := false
  modTime : Int := 0
  offset : Int := 0
  lastDirEntry : String := ""
  body : Option ByteStream := none
deriving DecidableEq, Repr

/-- Go method `Mode().IsDir()`. -/
def S3File.isDir (f : S3File) : Bool := f.mode

/-- Model of `path.Base` from Go's `path` package. -/
def pathBase (p : String) : String :=
  if p = "" then "."
  else
    let noTrail := (p.data.reverse.dropWhile (fun c => c = '/')).reverse
    let last := (noTrail.reverse.takeWhile (fun c => c ≠ '/')).reverse
    if last = [] then "/" else String.mk last

example : pathBase "a/b" = "b" := by decide
example : pathBase "dir/" = "dir" := by decide
example : pathBase "" = "." := by decide
example : pathBase "///" = "/" := by decide

/-- The ranged `GetObjectInput` built by `s3File.readerAt`. -/
def S3File.readerAtReq (f : S3File) (offset length : Int) : GetObjectInput :=
  { bucket := f.bucket, key := f.name, range := buildRange offset length }

/-- Model of `s3File.ReadAt` with buffer length `plen`.  `get` is the store's response
to the ranged `GetObject` issued by `readerAt` (an error there is wrapped in a
`PathError`); on success `io.ReadFull` drains the stream into the buffer, and
the resulting error is kept only when it is `io.EOF` or when the read ended
strictly beyond the recorded object size; otherwise the stream is closed
(modelled as succeeding) and its result returned. -/
def S3File.ReadAt (f : S3File) (plen : Nat) (offset : Int)
    (get : Except Err ByteStream) : Nat × Option Err :=
  match get with
  | .error e => (0, some (.pathErr opRead f.name e))
  | .ok r =>
    let res := readFull r plen
    match res.2 with
    | some e =>
      if e.isE Err.eof then (res.1, some e)
      else if offset + (res.1 : Int) > f.size then (res.1, some e)
      else (res.1, none)
    | none => (res.1, none)

/-- Model of `s3File.Read` with buffer length `plen`.  `d` is the byte count the open
body chooses to deliver if the streaming path is taken; `get` is the store's
response to the ranged `GetObject` if the random-access path is taken.
Returns the updated handle, the byte count, and the error. -/
def S3File.Read (f : S3File) (plen d : Nat)
    (get : Except Err ByteStream) : S3File × Nat × Option Err :=
  if f.isDir then (f, 0, some (.pathErr opRead f.name .isDirectory))
  else if f.offset ≥ f.size then (f, 0, some Err.eof)
  else match f.body with
  | some b =>
    let r := b.readOnce plen d
    ({ f with body := some r.2.2, offset := f.offset + (r.1 : Int) }, r.1, r.2.1)
  | none =>
    let ra := f.ReadAt plen f.offset get
    let f2 := { f with offset := f.offset + (ra.1 : Int) }
    match ra.2 with
    | some e =>
      if e.isE Err.unexpectedEOF ∧ f2.offset = f2.size then (f2, ra.1, some Err.eof)
      else (f2, ra.1, some e)
    | none => (f2, ra.1, none)

/-- The absolute target offset `Seek` computes from `whence`
(`io.SeekStart = 0`, `io.SeekCurrent = 1`, `io.SeekEnd = 2`). -/
def seekTarget (f : S3File) (offset whence : Int) : Int :=
  if whence = 0 then offset
  else if whence = 1 then offset + f.offset
  else offset + f.size

/-- Model of `s3File.Seek`: first closes any open body (the close is modelled as
succeeding), then computes the target offset, rejecting an unrecognized
`whence` or a target outside `[0, size]`. -/
def S3File.Seek (f : S3File) (offset whence : Int) : S3File × Except Err Int :=
  let f1 := { f with body := none }
  if whence ≠ 0 ∧ whence ≠ 1 ∧ whence ≠ 2 then
    (f1, .error (.pathErr opSeek f.name .errInvalid))
  else
    let t := seekTarget f offset whence
    if t < 0 ∨ t > f.size then (f1, .error (.pathErr opSeek f.name .errInvalid))
    else ({ f1 with offset := t }, .ok t)

/-- Model of `s3File.Close`: releases the body if present (close modelled as
succeeding); idempotent. -/
def S3File.Close (f : S3File) : S3File × Except Err Unit :=
  ({ f with body := none }, .ok ())

/-- Definition `listResToEntries` from `s3iofs.go`: every common prefix becomes a
directory entry, then every object becomes a file entry, each group kept in
the order of its array in the listing response. -/
def listResToEntries (bucket : String) (page : ListObjectsV2Output) : List S3File :=
  page.commonPrefixes.map
    (fun cp => ({ name := cp, bucket := bucket, mode := true } : S3File))
  ++ page.contents.map
    (fun o => ({ name := o.key, bucket := bucket,
                 size := o.size, modTime := o.lastModified } : S3File))

/-- The `ListObjectsV2Input` built by `s3File.ReadDir` for a page of at most
`n` entries, continuing after the stored cursor. -/
def S3File.readDirPageReq (f : S3File) (n : Int) : ListObjectsV2Input :=
  { bucket := f.bucket
    pfx := if f.name = "." then "" else f.name
    delimiter := "/"
    maxKeys := if n > 0 then some n else none
    startAfter := if f.lastDirEntry ≠ "" then some f.lastDirEntry else none }

/-- Model of `s3File.ReadDir` (one listing page on a directory handle).  `listRes` is
the store's response to `readDirPageReq`.  A non-directory handle is rejected
with a `PathError` of op `read` wrapping `fs.ErrNotExist`; an empty page is
`io.EOF`; a full page of exactly `n > 0` entries records the last entry's
path as the pagination cursor. -/
def S3File.readDirPage (f : S3File) (n : Int)
    (listRes : Except Err ListObjectsV2Output) : S3File × Except Err (List S3File) :=
  if ¬ f.isDir then (f, .error (.pathErr opRead (pathBase f.name) .errNotExist))
  else match listRes with
  | .error e => (f, .error e)
  | .ok page =>
    let entries := listResToEntries f.bucket page
    if entries.length = 0 then (f, .error Err.eof)
    else if 0 < n ∧ (entries.length : Int) = n then
      ({ f with lastDirEntry := ((entries.getLast?).getD f).name }, .ok entries)
    else (f, .ok entries)

/-- Split a character list at every slash (helper for `validPath`). -/
def splitSlash : List Char → List (List Char)
  | [] => [[]]
  | c :: cs =>
    let r := splitSlash cs
    if c = '/' then [] :: r
    else match r with
    | [] => [[c]]
    | h :: t => (c :: h) :: t

/-- Model of `fs.ValidPath` from Go's `io/fs`: "." is the root; otherwise every
slash-separated element must be nonempty and differ from "." and "..". -/
def validPath (name : String) : Bool :=
  if name = "." then true
  else (splitSlash name.data).all fun elem =>
    elem ≠ [] && elem ≠ ['.'] && elem ≠ ['.', '.']

example : validPath "." = true := by decide
example : validPath "a/b" = true := by decide
example : validPath "" = false := by decide
example : validPath "/a" = false := by decide
example : validPath "a/" = false := by decide
example : validPath "a/../b" = false := by decide

/-- The filesystem root object `S3FS` (the client capability is passed per
call as the store's response, so only the bucket is state). -/
structure S3FS where
  bucket : String
deriving DecidableEq, Repr

/-- The `ListObjectsV2Input` built by `S3FS.stat` for a non-root path. -/
def S3FS.statReq (fs : S3FS) (name : String) : ListObjectsV2Input :=
  { bucket := fs.bucket, pfx := name, delimiter := "/", maxKeys := some 1 }

/-- Model of `S3FS.stat`: "." resolves to the synthetic root directory without using
the listing response; otherwise the response to `statReq` decides: first
common prefix equal to `name ++ "/"` means directory, else first object with
key equal to `name` means file, else (and also on a listing error) a
`PathError` of op `open` wrapping `fs.ErrNotExist`. -/
def S3FS.stat (fs : S3FS) (name : String)
    (listRes : Except Err ListObjectsV2Output) : Except Err S3File :=
  if name = "." then .ok { name := ".", bucket := fs.bucket, mode := true }
  else match listRes with
  | .error _ => .error (.pathErr "open" name .errNotExist)
  | .ok list =>
    if list.commonPrefixes.head? = some (name ++ "/") then
      .ok { name := name, bucket := fs.bucket, mode := true }
    else match list.contents.head? with
    | some o =>
      if o.key = name then
        .ok { name := name, bucket := fs.bucket, size := o.size,
              modTime := o.lastModified }
      else .error (.pathErr "open" name .errNotExist)
    | none => .error (.pathErr "open" name .errNotExist)

/-- Model of `S3FS.Stat`: wraps any `stat` error in a `PathError` of op `stat`. -/
def S3FS.Stat (fs : S3FS) (name : String)
    (listRes : Except Err ListObjectsV2Output) : Except Err S3File :=
  match fs.stat name listRes with
  | .error e => .error (.pathErr "stat" name e)
  | .ok f => .ok f

/-- Model of `S3FS.openDirectory`: stat-based fallback used by `Open`; a stat result
that is a directory is returned as the handle, a file resolves to a
`PathError` of op `open` wrapping `fs.ErrNotExist`. -/
def S3FS.openDirectory (fs : S3FS) (name : String)
    (listRes : Except Err ListObjectsV2Output) : Except Err S3File :=
  match fs.stat name listRes with
  | .error e => .error e
  | .ok f => if f.isDir then .ok f else .error (.pathErr "open" name .errNotExist)

/-- Outcome of the optimistic whole-object `GetObject` issued by `Open`:
either the response, a not-found error (Go: `errors.As` on
`*types.NotFound`), or any other error. -/
inductive GetErr where
  | notFound
  | other (e : Err)
deriving DecidableEq, Repr

/-- The whole-object `GetObjectInput` built by `Open` (no range). -/
def S3FS.openGetReq (fs : S3FS) (name : String) : GetObjectInput :=
  { bucket := fs.bucket, key := name }

/-- Model of `S3FS.Open`: rejects invalid paths, returns the synthetic root directory
handle for ".", and otherwise issues the optimistic whole-object `GetObject`
(`getRes` is its response): on success the response is wrapped as a file
handle with the streaming body preloaded; on a not-found error it falls back
to `openDirectory` (`listRes` is the stat listing's response); any other
error is returned unchanged. -/
def S3FS.Open (fs : S3FS) (name : String)
    (getRes : Except GetErr GetObjectOutput)
    (listRes : Except Err ListObjectsV2Output) : Except Err S3File :=
  if ¬ validPath name then .error (.pathErr "open" name .errInvalid)
  else if name = "." then .ok { name := ".", bucket := fs.bucket, mode := true }
  else match getRes with
  | .ok res =>
    .ok { name := name, bucket := fs.bucket, size := res.contentLength,
          modTime := res.lastModified, body := some res.body }
  | .error .notFound => fs.openDirectory name listRes
  | .error (.other e) => .error e

/-- The `ListObjectsV2Input` built by `S3FS.ReadDir` (Go computes
`url.JoinPath(name, "/")`, overridden to the empty string for the root;
for valid relative paths `url.JoinPath(name, "/") = name ++ "/"`). -/
def S3FS.readDirReq (fs : S3FS) (name : String) : ListObjectsV2Input :=
  { bucket := fs.bucket
    pfx := if name = "." then "" else name ++ "/"
    delimiter := "/" }

/-- Model of `S3FS.ReadDir`: stat the path (`statRes` answers `statReq`), reject a
non-directory with a `PathError` of op `read` wrapping `fs.ErrNotExist`,
then turn the delimited listing's response (`dirRes`, answering
`readDirReq`) into entries. -/
def S3FS.ReadDir (fs : S3FS) (name : String)
    (statRes dirRes : Except Err ListObjectsV2Output) : Except Err (List S3File) :=
  match fs.stat name statRes with
  | .error e => .error e
  | .ok f =>
    if ¬ f.isDir then .error (.pathErr opRead name .errNotExist)
    else match dirRes with
    | .error e => .error e
    | .ok page => .ok (listResToEntries fs.bucket page)

/-- Model of `S3FS.Remove`: rejects "." and "" with a `PathError` wrapping
`fs.ErrInvalid`; otherwise issues `DeleteObject` (`delRes` is its response;
the first component is the request issued, `none` when rejected locally). -/
def S3FS.Remove (fs : S3FS) (name : String)
    (delRes : Except Err Unit) : Option DeleteObjectInput × Except Err Unit :=
  if name = "." then (none, .error (.pathErr "remove" name .errInvalid))
  else if name = "" then (none, .error (.pathErr "remove" name .errInvalid))
  else (some { bucket := fs.bucket, key := name },
    match delRes with
    | .ok _ => .ok ()
    | .error e => .error (.pathErr "remove" name e))

/-- Model of `S3FS.WriteFile`: rejects "." and "" with a `PathError` wrapping
`fs.ErrInvalid`; otherwise issues `PutObject` with the data (`putRes` is its
response; the first component is the request issued, `none` when rejected
locally). -/
def S3FS.WriteFile (fs : S3FS) (name : String) (data : List Nat)
    (putRes : Except Err Unit) : Option PutObjectInput × Except Err Unit :=
  if name = "." then (none, .error (.pathErr "write" name .errInvalid))
  else if name = "" then (none, .error (.pathErr "write" name .errInvalid))
  else (some { bucket := fs.bucket, key := name, body := data },
    match putRes with
    | .ok _ => .ok ()
    | .error e => .error (.pathErr "write" name e))

/-- One operation on an open handle, with the oracle data it consumes:
`readOp plen d get` is a sequential `Read` with buffer length `plen`, body
delivery count `d` and ranged-GET response `get`; `readAtOp` is a
random-access `ReadAt`; `seekOp` and `closeOp` are `Seek` and `Close`. -/
inductive FileOp where
  | readOp (plen d : Nat) (get : Except Err ByteStream)
  | readAtOp (plen : Nat) (off : Int) (get : Except Err ByteStream)
  | seekOp (off whence : Int)
  | closeOp
deriving Repr

/-- The handle state after one operation.  `ReadAt` in the source writes no
handle field, so its step is the identity on the handle. -/
def step (f : S3File) : FileOp → S3File
  | .readOp plen d get => (f.Read plen d get).1
  | .readAtOp _ _ _ => f
  | .seekOp off whence => (f.Seek off whence).1
  | .closeOp => f.Close.1

/-- Store honesty for one operation: the ranged `GetObject` issued by a
sequential `Read` at the current offset returns at most the bytes remaining
in the object (`size - offset`); the other operations are unconstrained. -/
def opValidB (f : S3File) : FileOp → Bool
  | .readOp _ _ (.ok s) => decide ((s.bytes.length : Int) ≤ f.size - f.offset)
  | _ => true

/-- Store honesty along a sequence of operations. -/
def opsValidB : S3File → List FileOp → Bool
  | _, [] => true
  | f, op :: rest => opValidB f op && opsValidB (step f op) rest

/-- Run a sequence of operations on a handle. -/
def runOps : S3File → List FileOp → S3File
  | f, [] => f
  | f, op :: rest => runOps (step f op) rest

/-- The handle invariant: the offset stays within `[0, size]`, and an open
body never holds more bytes than remain in the object past the offset. -/
def Inv (f : S3File) : Prop :=
  0 ≤ f.offset ∧ f.offset ≤ f.size ∧
    ∀ b, f.body = some b → f.offset + (b.bytes.length : Int) ≤ f.size

/-- C2: for offset ≥ 0 and length ≥ 1, `buildRange` yields the closed range
`bytes=offset-(offset+length-1)`, which selects exactly `length` bytes;
`buildRange 0 (-1)` yields no range expression; `buildRange o (-1)` for
`o > 0` yields the open-ended `bytes=o-`; `buildRange o 0` yields the
one-byte range `bytes=o-(o+1)`. -/
theorem c2_buildRange_spec :
    (∀ offset length : Int, 0 ≤ offset → 1 ≤ length →
      buildRange offset length
        = some ("bytes=" ++ toString offset ++ "-" ++ toString (offset + length - 1))
      ∧ (offset + length - 1) - offset + 1 = length)
    ∧ buildRange 0 (-1) = none
    ∧ (∀ o : Int, 0 < o → buildRange o (-1) = some ("bytes=" ++ toString o ++ "-"))
    ∧ (∀ o : Int, buildRange o 0
        = some ("bytes=" ++ toString o ++ "-" ++ toString (o + 1))) := by
  refine ⟨?_, by decide, ?_, ?_⟩
  · intro offset length h0 h1
    unfold buildRange
    rw [if_neg (by omega), if_neg (by omega), if_pos (by omega)]
    exact ⟨rfl, by omega⟩
  · intro o ho
    unfold buildRange
    rw [if_pos ⟨ho, by omega⟩]
  · intro o
    unfold buildRange
    rw [if_neg (by omega), if_pos rfl]

/-- Witness for C2 at concrete inputs. -/
theorem c2_buildRange_spec_witness :
    buildRange 5 10 = some "bytes=5-14"
    ∧ buildRange 3 (-1) = some "bytes=3-"
    ∧ buildRange 7 0 = some "bytes=7-8" := by
  refine ⟨?_, ?_, ?_⟩
  · rw [(c2_buildRange_spec.1 5 10 (by decide) (by decide)).1]; decide
  · rw [c2_buildRange_spec.2.2.1 3 (by decide)]; decide
  · rw [c2_buildRange_spec.2.2.2 7]; decide

/-- C4: `Seek` computes the target offset as `delta` for whence `Start`,
current offset plus `delta` for `Current`, and `size + delta` for `End`; it
fails with an invalid-argument `PathError` exactly when the whence is
unrecognized or the target lies outside `[0, size]`, and on success stores
and returns the target offset (the body having been closed either way). -/
theorem c4_seek_spec (f : S3File) (delta whence : Int) :
    ((whence = 0 ∨ whence = 1 ∨ whence = 2) →
      (seekTarget f delta whence
        = (if whence = 0 then delta
           else if whence = 1 then f.offset + delta else f.size + delta))
      ∧ (0 ≤ seekTarget f delta whence ∧ seekTarget f delta whence ≤ f.size →
          f.Seek delta whence
            = ({ f with body := none, offset := seekTarget f delta whence },
               .ok (seekTarget f delta whence)))
      ∧ (seekTarget f delta whence < 0 ∨ f.size < seekTarget f delta whence →
          f.Seek delta whence
            = ({ f with body := none },
               .error (.pathErr opSeek f.name .errInvalid))))
    ∧ (¬(whence = 0 ∨ whence = 1 ∨ whence = 2) →
        f.Seek delta whence
          = ({ f with body := none },
             .error (.pathErr opSeek f.name .errInvalid))) := by
  constructor
  · intro hw
    refine ⟨?_, ?_, ?_⟩
    · rcases hw with h | h | h <;> subst h <;> simp [seekTarget] <;> omega
    · intro hin
      unfold S3File.Seek
      rw [if_neg (by omega), if_neg (by omega)]
    · intro hout
      unfold S3File.Seek
      rw [if_neg (by omega), if_pos (by omega)]
  · intro hw
    unfold S3File.Seek
    rw [if_pos (by omega)]

/-- Witness for C4 on a 1024-byte object: `Seek(-512, End)` yields 512, two
successive `Seek(512, Current)` yield 512 then 1024, and `Seek(2048, Start)`
fails with the invalid-argument error. -/
theorem c4_seek_spec_witness :
    (S3File.Seek { name := "k", bucket := "b", size := 1024 } (-512) 2).2 = .ok 512
    ∧ ((S3File.Seek { name := "k", bucket := "b", size := 1024 } 512 1).1.Seek 512 1).2
        = .ok 1024
    ∧ (S3File.Seek { name := "k", bucket := "b", size := 1024 } 2048 0).2
        = .error (.pathErr opSeek "k" .errInvalid) := by
  refine ⟨?_, ?_, ?_⟩
  · rw [((c4_seek_spec { name := "k", bucket := "b", size := 1024 } (-512) 2).1
      (by omega)).2.1 (by decide)]; rfl
  · rw [((c4_seek_spec (S3File.Seek { name := "k", bucket := "b", size := 1024 } 512 1).1
      512 1).1 (by omega)).2.1 (by decide)]; rfl
  · rw [((c4_seek_spec { name := "k", bucket := "b", size := 1024 } 2048 0).1
      (by omega)).2.2 (by decide)]

/-- C10: a failing `Seek` (unrecognized whence or target outside `[0, size]`)
leaves the stored offset unchanged but has already closed and cleared the
streaming body; the next sequential `Read` therefore takes the random-access
path — its outcome no longer depends on any body delivery, its byte count is
that of a `ReadAt` at the old offset, and the ranged request it issues is
built from the old offset. -/
theorem c10_failed_seek_clears_body (f : S3File) (delta whence : Int)
    (hfail : ¬(whence = 0 ∨ whence = 1 ∨ whence = 2)
      ∨ seekTarget f delta whence < 0 ∨ f.size < seekTarget f delta whence) :
    f.Seek delta whence
      = ({ f with body := none }, .error (.pathErr opSeek f.name .errInvalid))
    ∧ (f.Seek delta whence).1.offset = f.offset
    ∧ (f.Seek delta whence).1.body = none
    ∧ (∀ plen d d2 get,
        (f.Seek delta whence).1.Read plen d get
          = (f.Seek delta whence).1.Read plen d2 get)
    ∧ (∀ plen d get, f.mode = false → f.offset < f.size →
        ((f.Seek delta whence).1.Read plen d get).2.1
          = ((f.Seek delta whence).1.ReadAt plen f.offset get).1)
    ∧ (∀ plen : Int, (f.Seek delta whence).1.readerAtReq f.offset plen
        = { bucket := f.bucket, key := f.name, range := buildRange f.offset plen }) := by
  have hs : f.Seek delta whence
      = ({ f with body := none }, .error (.pathErr opSeek f.name .errInvalid)) := by
    unfold S3File.Seek
    by_cases hw : whence = 0 ∨ whence = 1 ∨ whence = 2
    · rw [if_neg (by omega), if_pos (by omega)]
    · rw [if_pos (by omega)]
  refine ⟨hs, by rw [hs], by rw [hs], ?_, ?_, ?_⟩
  · intro plen d d2 get
    rw [hs]
    simp only [S3File.Read, S3File.isDir]
  · intro plen d get hm hlt
    rw [hs]
    simp only [S3File.Read, S3File.isDir, hm, Bool.false_eq_true, if_false]
    rw [if_neg (by simp; omega)]
    split
    · split <;> rfl
    · rfl
  · intro plen
    rw [hs]
    rfl

/-- Witness for C10: a seek to 99 on a 10-byte handle at offset 3 with an
open body fails, yet the body is gone and the offset is still 3. -/
theorem c10_failed_seek_clears_body_witness :
    S3File.Seek
      { name := "k", bucket := "b", size := 10, offset := 3,
        body := some { bytes := [1, 2] } } 99 0
      = ({ name := "k", bucket := "b", size := 10, offset := 3, body := none },
         .error (.pathErr opSeek "k" .errInvalid)) :=
  (c10_failed_seek_clears_body
    { name := "k", bucket := "b", size := 10, offset := 3,
      body := some { bytes := [1, 2] } } 99 0 (by right; right; decide)).1

/-- C1: for every valid non-root path, `Open` is decided by the optimistic
whole-object GET it issues: on success it returns a file handle with the
streaming body preloaded and size and modification time taken from the GET
response; exactly on a not-found error it falls back to the stat-based
directory resolution (directory handle when stat resolves to a directory,
not-found `PathError` when stat resolves to a file, stat errors propagated);
any other GET failure is propagated unchanged. -/
theorem c1_open_optimistic_get (fs : S3FS) (name : String)
    (getRes : Except GetErr GetObjectOutput)
    (listRes : Except Err ListObjectsV2Output)
    (hv : validPath name = true) (hr : name ≠ ".") :
    (∀ res, getRes = .ok res →
      fs.Open name getRes listRes
        = .ok { name := name, bucket := fs.bucket, size := res.contentLength,
                modTime := res.lastModified, body := some res.body })
    ∧ (getRes = .error .notFound →
        (∀ d, fs.stat name listRes = .ok d → d.isDir = true →
          fs.Open name getRes listRes = .ok d)
        ∧ (∀ d, fs.stat name listRes = .ok d → d.isDir = false →
            fs.Open name getRes listRes
              = .error (.pathErr "open" name .errNotExist))
        ∧ (∀ e, fs.stat name listRes = .error e →
            fs.Open name getRes listRes = .error e))
    ∧ (∀ e, getRes = .error (.other e) →
        fs.Open name getRes listRes = .error e) := by
  refine ⟨?_, ?_, ?_⟩
  · intro res h
    subst h
    simp [S3FS.Open, hv, hr]
  · intro h
    subst h
    refine ⟨?_, ?_, ?_⟩
    · intro d hd hdir
      simp [S3FS.Open, hv, hr, S3FS.openDirectory, hd, hdir]
    · intro d hd hdir
      simp [S3FS.Open, hv, hr, S3FS.openDirectory, hd, hdir]
    · intro e he
      simp [S3FS.Open, hv, hr, S3FS.openDirectory, he]
  · intro e h
    subst h
    simp [S3FS.Open, hv, hr]

/-- Witness for C1: opening "key" when the GET succeeds with a 7-byte
object yields the preloaded file handle. -/
theorem c1_open_optimistic_get_witness :
    S3FS.Open ⟨"bkt"⟩ "key"
      (.ok { contentLength := 7, lastModified := 3, body := { bytes := [1, 2] } })
      (.ok { commonPrefixes := [], contents := [] })
      = .ok { name := "key", bucket := "bkt", size := 7, modTime := 3,
              body := some { bytes := [1, 2] } } :=
  (c1_open_optimistic_get ⟨"bkt"⟩ "key" _ _ (by decide) (by decide)).1 _ rfl

/-- C5: stat resolution — "." resolves to the synthetic root directory with
no dependence on any listing response; any other path issues the listing
`prefix = path, delimiter = "/", maxKeys = 1` and, for a response honouring
`maxKeys = 1`, yields a directory entry iff a returned common prefix equals
`path ++ "/"`, else a file entry (with that object's size and time) iff a
returned object key equals the path exactly, and otherwise (including a
listing error) a not-found `PathError`, never a generic error. -/
theorem c5_stat_spec (fs : S3FS) (name : String) (list : ListObjectsV2Output)
    (hn : name ≠ ".")
    (hmax : list.commonPrefixes.length + list.contents.length ≤ 1) :
    (fs.stat name (.ok list)
      = (if (name ++ "/") ∈ list.commonPrefixes then
          .ok { name := name, bucket := fs.bucket, mode := true }
        else match list.contents.find? (fun o => o.key = name) with
        | some o => .ok { name := name, bucket := fs.bucket, size := o.size,
                          modTime := o.lastModified }
        | none => .error (.pathErr "open" name .errNotExist)))
    ∧ (∀ l1 l2 : Except Err ListObjectsV2Output, fs.stat "." l1 = fs.stat "." l2)
    ∧ fs.stat "." (.ok list) = .ok { name := ".", bucket := fs.bucket, mode := true }
    ∧ fs.statReq name
        = { bucket := fs.bucket, pfx := name, delimiter := "/",
            maxKeys := some 1, startAfter := none }
    ∧ (∀ e, fs.stat name (.error e) = .error (.pathErr "open" name .errNotExist)) := by
  refine ⟨?_, ?_, rfl, rfl, ?_⟩
  · obtain ⟨cps, cts⟩ := list
    simp only [ListObjectsV2Output.commonPrefixes, ListObjectsV2Output.contents] at hmax ⊢
    rcases cps with _ | ⟨p, ps⟩
    · rcases cts with _ | ⟨o, ts⟩
      · simp [S3FS.stat, hn]
      · rcases ts with _ | ⟨o2, ts⟩
        · by_cases hk : o.key = name <;> simp [S3FS.stat, hn, hk]
        · simp at hmax
    · rcases ps with _ | ⟨p2, ps⟩
      · rcases cts with _ | ⟨o, ts⟩
        · by_cases hp : p = name ++ "/"
          · simp [S3FS.stat, hn, hp]
          · simp [S3FS.stat, hn, hp, Ne.symm hp]
        · simp at hmax
      · simp at hmax; omega
  · intro l1 l2
    simp [S3FS.stat]
  · intro e
    simp [S3FS.stat, hn]

/-- Witness for C5: stat of "x" against a page whose only common prefix is
"x/" resolves to a directory entry. -/
theorem c5_stat_spec_witness :
    S3FS.stat ⟨"bkt"⟩ "x" (.ok { commonPrefixes := ["x/"], contents := [] })
      = .ok { name := "x", bucket := "bkt", mode := true } := by
  rw [(c5_stat_spec ⟨"bkt"⟩ "x" { commonPrefixes := ["x/"], contents := [] }
    (by decide) (by decide)).1]
  rfl

/-- C7 counterexample: "/etc/passwd" and "../x" are structurally invalid
paths, yet `Remove` and `WriteFile` do not reject them locally — each issues
its store request (first component `some …`) and even reports success. -/
theorem c7_counterexample :
    validPath "/etc/passwd" = false
    ∧ (S3FS.Remove ⟨"bkt"⟩ "/etc/passwd" (.ok ())).1
        = some { bucket := "bkt", key := "/etc/passwd" }
    ∧ (S3FS.Remove ⟨"bkt"⟩ "/etc/passwd" (.ok ())).2 = .ok ()
    ∧ validPath "../x" = false
    ∧ (S3FS.WriteFile ⟨"bkt"⟩ "../x" [1] (.ok ())).1
        = some { bucket := "bkt", key := "../x", body := [1] }
    ∧ (S3FS.WriteFile ⟨"bkt"⟩ "../x" [1] (.ok ())).2 = .ok () := by
  refine ⟨by decide, rfl, rfl, by decide, rfl, rfl⟩

/-- C7 amended: `Open` rejects every structurally invalid path locally with
an invalid-path `PathError` (independently of any store response), but
`Remove` and `WriteFile` perform no structural validation: they reject
locally exactly the root path "." and the empty path, and for every other
name — valid or not — they issue the delete/put request to the store. -/
theorem c7_amended (fs : S3FS) (name : String) (data : List Nat)
    (delRes putRes : Except Err Unit)
    (getRes : Except GetErr GetObjectOutput)
    (listRes : Except Err ListObjectsV2Output) :
    (validPath name = false →
      fs.Open name getRes listRes = .error (.pathErr "open" name Err.errInvalid))
    ∧ (name = "." ∨ name = "" →
        (fs.Remove name delRes).1 = none
        ∧ (fs.Remove name delRes).2 = .error (.pathErr "remove" name Err.errInvalid)
        ∧ (fs.WriteFile name data putRes).1 = none
        ∧ (fs.WriteFile name data putRes).2
            = .error (.pathErr "write" name Err.errInvalid))
    ∧ (name ≠ "." → name ≠ "" →
        (fs.Remove name delRes).1 = some { bucket := fs.bucket, key := name }
        ∧ (fs.WriteFile name data putRes).1
            = some { bucket := fs.bucket, key := name, body := data }) := by
  refine ⟨?_, ?_, ?_⟩
  · intro hv
    simp [S3FS.Open, hv]
  · rintro (h | h) <;> subst h <;>
      simp [S3FS.Remove, S3FS.WriteFile]
  · intro h1 h2
    simp [S3FS.Remove, S3FS.WriteFile, h1, h2]

/-- Witness for C7 amended: `Open` of "/a" is rejected locally while
`Remove` of "." is rejected and `Remove` of "k" issues its request. -/
theorem c7_amended_witness :
    S3FS.Open ⟨"bkt"⟩ "/a" (.error .notFound) (.error (.other 0))
      = .error (.pathErr "open" "/a" Err.errInvalid)
    ∧ (S3FS.Remove ⟨"bkt"⟩ "." (.ok ())).1 = none
    ∧ (S3FS.Remove ⟨"bkt"⟩ "k" (.ok ())).1 = some { bucket := "bkt", key := "k" } :=
  ⟨(c7_amended ⟨"bkt"⟩ "/a" [] (.ok ()) (.ok ()) (.error .notFound)
      (.error (.other 0))).1 (by decide),
   ((c7_amended ⟨"bkt"⟩ "." [] (.ok ()) (.ok ()) (.error .notFound)
      (.error (.other 0))).2.1 (Or.inl rfl)).1,
   ((c7_amended ⟨"bkt"⟩ "k" [] (.ok ()) (.ok ()) (.error .notFound)
      (.error (.other 0))).2.2 (by decide) (by decide)).1⟩

/-- C8 counterexample: `ReadDir` on the path "f", which stat resolves to a
file, fails with a `PathError` of op `read` wrapping `fs.ErrNotExist` — the
very not-found sentinel used for missing paths (`errors.Is` on
`fs.ErrNotExist` holds) — not a distinct not-a-directory error kind. -/
theorem c8_counterexample :
    S3FS.ReadDir ⟨"bkt"⟩ "f"
      (.ok { commonPrefixes := [],
             contents := [{ key := "f", size := 3, lastModified := 0 }] })
      (.ok { commonPrefixes := [], contents := [] })
      = .error (.pathErr opRead "f" Err.errNotExist)
    ∧ S3FS.stat ⟨"bkt"⟩ "f"
        (.ok { commonPrefixes := [],
               contents := [{ key := "f", size := 3, lastModified := 0 }] })
        = .ok { name := "f", bucket := "bkt", size := 3 }
    ∧ S3FS.stat ⟨"bkt"⟩ "missing" (.ok { commonPrefixes := [], contents := [] })
        = .error (.pathErr "open" "missing" Err.errNotExist)
    ∧ (Err.pathErr opRead "f" Err.errNotExist).isE Err.errNotExist = true := by
  refine ⟨rfl, rfl, rfl, by decide⟩

/-- C8 amended: `ReadDir` on a path that stat resolves to a file fails with
a `PathError` of op `read` wrapping the not-found sentinel `fs.ErrNotExist`
(the same error kind used for nonexistent paths), and a directory-page read
on a non-directory handle fails the same way (path rendered through
`path.Base`), leaving the handle unchanged. -/
theorem c8_amended (fs : S3FS) (name : String)
    (statRes dirRes : Except Err ListObjectsV2Output) (f : S3File)
    (hstat : fs.stat name statRes = .ok f) (hdir : f.isDir = false) :
    fs.ReadDir name statRes dirRes = .error (.pathErr opRead name Err.errNotExist)
    ∧ (∀ (g : S3File) (n : Int) (lr : Except Err ListObjectsV2Output),
        g.mode = false →
        g.readDirPage n lr
          = (g, .error (.pathErr opRead (pathBase g.name) Err.errNotExist))) := by
  constructor
  · simp [S3FS.ReadDir, hstat, hdir]
  · intro g n lr hm
    simp [S3File.readDirPage, S3File.isDir, hm]

/-- Witness for C8 amended at the concrete file "f". -/
theorem c8_amended_witness :
    S3FS.ReadDir ⟨"bkt"⟩ "f"
      (.ok { commonPrefixes := [],
             contents := [{ key := "f", size := 3, lastModified := 0 }] })
      (.error (.other 0))
      = .error (.pathErr opRead "f" Err.errNotExist) :=
  (c8_amended ⟨"bkt"⟩ "f"
    (.ok { commonPrefixes := [],
           contents := [{ key := "f", size := 3, lastModified := 0 }] })
    (.error (.other 0))
    { name := "f", bucket := "bkt", size := 3 } rfl rfl).1

/-- C3 counterexample: on a 10-byte handle, a ranged read of 10 bytes whose
stream delivers only 5 bytes and then ends — a short read ending strictly
before the object's size (0 + 5 < 10) — returns the 5 bytes with no error at
all through `ReadAt`, and likewise through sequential `Read`; the truncation
is not surfaced to the caller. -/
theorem c3_counterexample :
    S3File.ReadAt { name := "k", bucket := "b", size := 10 } 10 0
        (.ok { bytes := [1, 2, 3, 4, 5] })
      = (5, none)
    ∧ ((0 : Int) + 5 < (10 : Int))
    ∧ (S3File.Read { name := "k", bucket := "b", size := 10 } 10 0
        (.ok { bytes := [1, 2, 3, 4, 5] })).2
      = (5, none) := by
  refine ⟨rfl, by decide, rfl⟩

/-- C3 amended: for a genuinely short delivery (some bytes, fewer than the
buffer, the stream not ending in an `io.EOF`-like error), `ReadAt` returns
the delivered count and surfaces no error at all — neither end-of-stream nor
truncation — if and only if the read ends at or before the recorded size;
the truncation error is surfaced exactly when the read ends strictly beyond
the recorded size; sequential `Read` through the random-access path behaves
the same way. -/
theorem c3_amended_short_read (f : S3File) (plen : Nat) (off : Int)
    (s : ByteStream)
    (hshort : s.bytes.length < plen) (hpos : 0 < s.bytes.length)
    (hterm : ∀ e, s.terminal = some e → e.isE Err.eof = false) :
    ((f.ReadAt plen off (.ok s)).2 = none
      ↔ off + (s.bytes.length : Int) ≤ f.size)
    ∧ (f.ReadAt plen off (.ok s)).1 = s.bytes.length
    ∧ (f.body = none → f.mode = false → f.offset = off →
        ((f.Read plen 0 (.ok s)).2.2 = none
          ↔ off + (s.bytes.length : Int) ≤ f.size)) := by
  have hfull : readFull s plen
      = (s.bytes.length,
         match s.terminal with
         | some e => some e
         | none => some Err.unexpectedEOF) := by
    unfold readFull
    rw [if_neg (by omega)]
    cases hterm3 : s.terminal with
    | none =>
      simp only [hterm3]
      rw [if_neg (by omega)]
    | some e =>
      simp only [hterm3]
  have hra : f.ReadAt plen off (.ok s)
      = (s.bytes.length,
         if off + (s.bytes.length : Int) > f.size then
           some (match s.terminal with
                 | some e => e
                 | none => Err.unexpectedEOF)
         else none) := by
    rcases hterm2 : s.terminal with _ | e
    · unfold S3File.ReadAt
      simp only [hfull, hterm2]
      rw [if_neg (by decide)]
      by_cases hC : off + (s.bytes.length : Int) > f.size
      · rw [if_pos hC, if_pos hC]
      · rw [if_neg hC, if_neg hC]
    · unfold S3File.ReadAt
      simp only [hfull, hterm2]
      rw [if_neg (by simp [hterm e hterm2])]
      by_cases hC : off + (s.bytes.length : Int) > f.size
      · rw [if_pos hC, if_pos hC]
      · rw [if_neg hC, if_neg hC]
  refine ⟨?_, ?_, ?_⟩
  · rw [hra]
    constructor
    · intro h
      by_contra hgt
      rw [if_pos (by omega)] at h
      exact Option.some_ne_none _ h
    · intro h
      rw [if_neg (by omega)]
  · rw [hra]
  · intro hb hm ho
    unfold S3File.Read
    simp only [S3File.isDir, hm, Bool.false_eq_true, if_false, hb]
    by_cases hoff : f.offset ≥ f.size
    · rw [if_pos hoff]
      simp only []
      constructor
      · intro h
        exact absurd h (by simp)
      · intro h
        omega
    · rw [if_neg hoff]
      simp only [ho, hra]
      by_cases hgt : off + (s.bytes.length : Int) > f.size
      · rw [if_pos hgt]
        simp only []
        constructor
        · intro h
          split at h <;> simp at h
        · intro h
          omega
      · rw [if_neg hgt]
        simp only []
        constructor
        · intro _
          omega
        · intro _
          trivial

/-- Witness for C3 amended: a 3-byte delivery against a 5-byte buffer on a
10-byte handle at offset 0 surfaces no error. -/
theorem c3_amended_short_read_witness :
    (S3File.ReadAt { name := "k", bucket := "b", size := 10 } 5 0
      (.ok { bytes := [1, 2, 3] })).2 = none :=
  (c3_amended_short_read { name := "k", bucket := "b", size := 10 } 5 0
    { bytes := [1, 2, 3] } (by decide) (by decide)
    (fun e he => by simp at he)).1.mpr (by decide)

/-- C6 counterexample: a listing page holding the object key "a" and the
common prefix "b/" is lexicographically ordered "a" before "b/" in the
store's listing, yet `listResToEntries` emits the directory entry "b/" first
and the file entry "a" second — the output is not in the page's interleaved
lexicographic order, so the resolver does regroup entries. -/
theorem c6_counterexample :
    ((listResToEntries "bkt"
        { commonPrefixes := ["b/"],
          contents := [{ key := "a", size := 1, lastModified := 0 }] }).map
      S3File.name)
      = ["b/", "a"]
    ∧ ("a" : String).data < ("b/" : String).data
    ∧ ¬ List.Sorted (· < ·)
        ((listResToEntries "bkt"
          { commonPrefixes := ["b/"],
            contents := [{ key := "a", size := 1, lastModified := 0 }] }).map
          S3File.name) := by
  refine ⟨rfl, by decide, ?_⟩
  intro h
  have hlt : ("b/" : String) < "a" := by
    have := List.sorted_cons.mp
      (by
        have he : (listResToEntries "bkt"
            { commonPrefixes := ["b/"],
              contents := [{ key := "a", size := 1, lastModified := 0 }] }).map
            S3File.name = ["b/", "a"] := rfl
        rw [he] at h
        exact h)
    exact this.1 "a" (by simp)
  exact absurd (String.lt_iff_toList_lt.mp hlt) (by decide)

/-- C6 amended: `listResToEntries` preserves the order within each group but
regroups: the entry names are exactly the common prefixes (in page order)
followed by the object keys (in page order); every entry in the leading
block is a directory entry and every entry in the trailing block is a file
entry. -/
theorem c6_amended (bucket : String) (page : ListObjectsV2Output) :
    ((listResToEntries bucket page).map S3File.name
      = page.commonPrefixes ++ page.contents.map ObjectInfo.key)
    ∧ (∀ e ∈ (listResToEntries bucket page).take page.commonPrefixes.length,
        e.isDir = true)
    ∧ (∀ e ∈ (listResToEntries bucket page).drop page.commonPrefixes.length,
        e.isDir = false) := by
  refine ⟨?_, ?_, ?_⟩
  · simp [listResToEntries, Function.comp_def]
  · intro e he
    rw [listResToEntries,
      show page.commonPrefixes.length
          = (page.commonPrefixes.map
              (fun cp => ({ name := cp, bucket := bucket, mode := true } : S3File))).length
        from (List.length_map _ _).symm,
      List.take_left] at he
    obtain ⟨cp, _, rfl⟩ := List.mem_map.mp he
    rfl
  · intro e he
    rw [listResToEntries,
      show page.commonPrefixes.length
          = (page.commonPrefixes.map
              (fun cp => ({ name := cp, bucket := bucket, mode := true } : S3File))).length
        from (List.length_map _ _).symm,
      List.drop_left] at he
    obtain ⟨o, _, rfl⟩ := List.mem_map.mp he
    rfl

/-- Witness for C6 amended at a concrete page. -/
theorem c6_amended_witness :
    (listResToEntries "bkt"
      { commonPrefixes := ["d/"],
        contents := [{ key := "f", size := 2, lastModified := 1 }] }).map
      S3File.name
      = ["d/"] ++ ["f"] :=
  (c6_amended "bkt"
    { commonPrefixes := ["d/"],
      contents := [{ key := "f", size := 2, lastModified := 1 }] }).1

/-- The byte count of `readFull` never exceeds the stream's bytes. -/
theorem readFull_fst_le (r : ByteStream) (plen : Nat) :
    (readFull r plen).1 ≤ r.bytes.length := by
  unfold readFull
  split
  · rename_i h
    simpa using h
  · simp

/-- The byte count of `ReadAt` on a successful ranged GET never exceeds the
stream's bytes. -/
theorem ReadAt_fst_le (f : S3File) (plen : Nat) (off : Int) (s : ByteStream) :
    (f.ReadAt plen off (.ok s)).1 ≤ s.bytes.length := by
  have h := readFull_fst_le s plen
  unfold S3File.ReadAt
  simp only []
  split
  · split
    · exact h
    · split
      · exact h
      · exact h
  · exact h

/-- One operation preserves the handle invariant, assuming store honesty for
that operation. -/
theorem Inv_preserved_step (f : S3File) (op : FileOp)
    (hI : Inv f) (hv : opValidB f op = true) : Inv (step f op) := by
  obtain ⟨h0, h1, h2⟩ := hI
  cases op with
  | readAtOp plen off get => exact ⟨h0, h1, h2⟩
  | closeOp =>
    refine ⟨h0, h1, ?_⟩
    intro b hb
    simp [step, S3File.Close] at hb
  | seekOp off whence =>
    show Inv (f.Seek off whence).1
    simp only [S3File.Seek]
    by_cases hw : whence ≠ 0 ∧ whence ≠ 1 ∧ whence ≠ 2
    · rw [if_pos hw]
      exact ⟨h0, h1, fun b hb => by simp at hb⟩
    · rw [if_neg hw]
      by_cases ht : seekTarget f off whence < 0 ∨ seekTarget f off whence > f.size
      · rw [if_pos ht]
        exact ⟨h0, h1, fun b hb => by simp at hb⟩
      · rw [if_neg ht]
        refine ⟨?_, ?_, fun b hb => by simp at hb⟩
        · show 0 ≤ seekTarget f off whence
          omega
        · show seekTarget f off whence ≤ f.size
          omega
  | readOp plen d get =>
    show Inv (f.Read plen d get).1
    unfold S3File.Read
    by_cases hdir : f.isDir = true
    · rw [if_pos hdir]
      exact ⟨h0, h1, h2⟩
    · rw [if_neg hdir]
      by_cases hoff : f.offset ≥ f.size
      · rw [if_pos hoff]
        exact ⟨h0, h1, h2⟩
      · rw [if_neg hoff]
        cases hb : f.body with
        | some b =>
          simp only [ByteStream.readOnce]
          have hlen := h2 b hb
          have hmin : min (min plen d) b.bytes.length ≤ b.bytes.length :=
            Nat.min_le_right _ _
          refine ⟨?_, ?_, ?_⟩
          · show 0 ≤ f.offset + ((min (min plen d) b.bytes.length : Nat) : Int)
            omega
          · show f.offset + ((min (min plen d) b.bytes.length : Nat) : Int) ≤ f.size
            omega
          · intro b2 hb2
            have hb3 : some ({ bytes := b.bytes.drop (min (min plen d) b.bytes.length),
                               terminal := b.terminal } : ByteStream) = some b2 := hb2
            have hb4 : ({ bytes := b.bytes.drop (min (min plen d) b.bytes.length),
                          terminal := b.terminal } : ByteStream) = b2 := by
              injection hb3 with h9
            subst hb4
            show f.offset + ((min (min plen d) b.bytes.length : Nat) : Int)
                + ((b.bytes.drop (min (min plen d) b.bytes.length)).length : Int)
              ≤ f.size
            rw [List.length_drop]
            omega
        | none =>
          have hcount : ((f.ReadAt plen f.offset get).1 : Int) ≤ f.size - f.offset := by
            cases get with
            | error e =>
              show ((0 : Nat) : Int) ≤ f.size - f.offset
              omega
            | ok s =>
              have hle := ReadAt_fst_le f plen f.offset s
              have hv2 : (s.bytes.length : Int) ≤ f.size - f.offset := by
                simpa [opValidB] using hv
              omega
          have key : Inv ({ f with
              offset := f.offset + ((f.ReadAt plen f.offset get).1 : Int),
              body := none } : S3File) := by
            refine ⟨?_, ?_, ?_⟩
            · show 0 ≤ f.offset + ((f.ReadAt plen f.offset get).1 : Int)
              omega
            · show f.offset + ((f.ReadAt plen f.offset get).1 : Int) ≤ f.size
              omega
            · intro b2 hb2
              exact absurd hb2 (by simp)
          simp only []
          split
          · split
            · exact key
            · exact key
          · exact key

/-- The invariant is preserved along any honest operation sequence. -/
theorem Inv_runOps : ∀ (ops : List FileOp) (f : S3File),
    Inv f → opsValidB f ops = true → Inv (runOps f ops)
  | [], _, h, _ => h
  | op :: rest, f, h, hv => by
    have hv2 : opValidB f op = true ∧ opsValidB (step f op) rest = true := by
      simpa [opsValidB, Bool.and_eq_true] using hv
    exact Inv_runOps rest (step f op) (Inv_preserved_step f op h hv2.1) hv2.2

/-- C9: starting from a handle satisfying the invariant (offset in
`[0, size]` and any preloaded body no longer than the object's remainder),
after any sequence of Read, ReadAt, Seek and Close operations — each ranged
GET honestly bounded by the object's remaining size — the stored offset
remains within `[0, size]`; moreover `ReadAt` never mutates the handle
state, whatever offset and buffer it is given. -/
theorem c9_offset_invariant (ops : List FileOp) (f : S3File)
    (h0 : Inv f) (hv : opsValidB f ops = true) :
    (0 ≤ (runOps f ops).offset ∧ (runOps f ops).offset ≤ (runOps f ops).size)
    ∧ (∀ (plen : Nat) (off : Int) (get : Except Err ByteStream),
        step f (.readAtOp plen off get) = f) := by
  have h := Inv_runOps ops f h0 hv
  exact ⟨⟨h.1, h.2.1⟩, fun _ _ _ => rfl⟩

/-- Witness for C9: a freshly opened 4-byte handle with its whole body
preloaded, after a streaming read, a seek, a ranged read and a close, ends
with its offset still within `[0, 4]`. -/
theorem c9_offset_invariant_witness :
    0 ≤ (runOps
        { name := "k", bucket := "b", size := 4,
          body := some { bytes := [9, 9, 9, 9] } }
        [FileOp.readOp 2 2 (.ok { bytes := [] }),
         FileOp.seekOp 1 0,
         FileOp.readOp 3 3 (.ok { bytes := [5, 5] }),
         FileOp.closeOp]).offset
    ∧ (runOps
        { name := "k", bucket := "b", size := 4,
          body := some { bytes := [9, 9, 9, 9] } }
        [FileOp.readOp 2 2 (.ok { bytes := [] }),
         FileOp.seekOp 1 0,
         FileOp.readOp 3 3 (.ok { bytes := [5, 5] }),
         FileOp.closeOp]).offset
      ≤ (runOps
        { name := "k", bucket := "b", size := 4,
          body := some { bytes := [9, 9, 9, 9] } }
        [FileOp.readOp 2 2 (.ok { bytes := [] }),
         FileOp.seekOp 1 0,
         FileOp.readOp 3 3 (.ok { bytes := [5, 5] }),
         FileOp.closeOp]).size :=
  (c9_offset_invariant
    [FileOp.readOp 2 2 (.ok { bytes := [] }),
     FileOp.seekOp 1 0,
     FileOp.readOp 3 3 (.ok { bytes := [5, 5] }),
     FileOp.closeOp]
    { name := "k", bucket := "b", size := 4,
      body := some { bytes := [9, 9, 9, 9] } }
    ⟨by decide, by decide, fun b hb => by
      have hb2 : ({ bytes := [9, 9, 9, 9] } : ByteStream) = b := by
        injection hb
      subst hb2
      decide⟩
    (by decide)).1

end S3IOFS
